import Mathlib

/-!
Verification of the pyrate sequential raytracer core (optical_element.py,
surface_shape.py) via a shallow embedding.  Python dicts become association
lists with in-place overwrite, mutation becomes explicit state passing,
floating point numbers become real (or exact rational/integer) arithmetic,
and raised exceptions become an Option String component of the result.
-/

namespace Pyrate

/-- Python dict lookup on an association list (first matching key). -/
def dictGet {α β : Type} [DecidableEq α] (k : α) : List (α × β) → Option β
  | [] => none
  | (k1, v1) :: rest => if k1 = k then some v1 else dictGet k rest

/-- Python dict assignment on an association list: replaces the value at an
existing key in place, otherwise appends the binding at the end (insertion
order of a Python dict). -/
def dictInsert {α β : Type} [DecidableEq α] (k : α) (v : β) : List (α × β) → List (α × β)
  | [] => [(k, v)]
  | (k1, v1) :: rest =>
      if k1 = k then (k, v) :: rest else (k1, v1) :: dictInsert k v rest

/-- Material object: oid models the Python object identity (id()), lc the
identifier of the local coordinate frame the material is attached to, and
val the remaining (physical) payload; two materials may be value-equal
(same val) while being distinct objects (different oid). -/
structure Material (V : Type) where
  oid : Nat
  lc : Nat
  comment : String
  val : V
deriving DecidableEq

/-- Surface object: sid models the object identity, rootcoordinatesystem the
identifier of the frame the surface is attached to. -/
structure Surface where
  sid : Nat
  rootcoordinatesystem : Nat
deriving DecidableEq

instance : Inhabited Surface := ⟨⟨0, 0⟩⟩

/-- Per-entry option dict of a trace sequence; seqtrace only ever reads the
is_mirror flag (surfoptions.get with default False). -/
structure SurfOptions where
  is_mirror : Bool
deriving DecidableEq

/-- State of an OpticalElement: the surfaces dict, the materials dict and the
surf_mat_connection dict (kept in the options dict of the Python object).
rootConnected models the identities returned by
rootcoordinatesystem.returnConnectedChildren (localcoordinates.py is not
among the given sources; modelled from the spec: the set of frames already
connected to the element root frame, membership by object identity). -/
structure OpticalElement (V : Type) where
  rootConnected : List Nat
  surfaces : List (String × Surface)
  materials : List (String × Material V)
  surf_mat_connection : List (String × (String × String))
deriving DecidableEq

/-- Source localcoordinatestreebase.py checkForRootConnection: membership of
the given frame in the connected children of the root frame. -/
def checkForRootConnection {V : Type} (el : OpticalElement V) (lc : Nat) : Bool :=
  decide (lc ∈ el.rootConnected)

/-- Source optical_element.py addSurface.  A raised exception is modelled as
a some message in the second component; the first component is the element
state after the call (partial updates made before the raise included). -/
def addSurface {V : Type} (el : OpticalElement V) (key : String)
    (surface_object : Surface) (materialkeys : String × String) :
    OpticalElement V × Option String :=
  if checkForRootConnection el surface_object.rootcoordinatesystem then
    let el1 := { el with surfaces := dictInsert key surface_object el.surfaces }
    ({ el1 with
        surf_mat_connection := dictInsert key materialkeys el1.surf_mat_connection },
     none)
  else
    (el, some "surface coordinate system should be connected to OpticalElement root coordinate system")

/-- Source optical_element.py changeMaterialsForSurface. -/
def changeMaterialsForSurface {V : Type} (el : OpticalElement V) (key : String)
    (materialkeys : String × String) : OpticalElement V :=
  if (dictGet key el.surf_mat_connection).isSome then
    { el with surf_mat_connection := dictInsert key materialkeys el.surf_mat_connection }
  else
    el

/-- Source optical_element.py addMaterial: on an already taken key only a
warning is emitted and the material is not added; an unconnected frame
raises. -/
def addMaterial {V : Type} (el : OpticalElement V) (key : String)
    (material_object : Material V) (comment : String) :
    OpticalElement V × Option String :=
  if checkForRootConnection el material_object.lc then
    if (dictGet key el.materials).isNone then
      ({ el with
          materials := dictInsert key { material_object with comment := comment }
            el.materials },
       none)
    else
      (el, none)
  else
    (el, some "material coordinate system should be connected to OpticalElement root coordinate system")

/-- Source optical_element.py findoutWhichMaterial: reference comparison via
id(); returns mat2 when mat1 is the current material object, else mat1. -/
def findoutWhichMaterial {V : Type} (mat1 mat2 current_mat : Material V) :
    Material V :=
  if mat1.oid = current_mat.oid then mat2 else mat1

/-- Loop body of sequence_to_hitlist: walks the consecutive pairs of the
sequence, counting in hitlist_dict how often each ordered key pair occurred,
and collects the hitlist and the per-hit options dict. -/
def hitlistLoop (hitlist_dict : List ((String × String) × Nat)) :
    List ((String × SurfOptions) × (String × SurfOptions)) →
      List (String × String × Nat) ×
      List ((String × String × Nat) × (SurfOptions × SurfOptions))
  | [] => ([], [])
  | ((sb, optsb), (se, optse)) :: rest =>
      let hit := ((dictGet (sb, se) hitlist_dict).getD 0) + 1
      let res := hitlistLoop (dictInsert (sb, se) hit hitlist_dict) rest
      ((sb, se, hit) :: res.1, ((sb, se, hit), (optsb, optse)) :: res.2)

/-- Source optical_element.py sequence_to_hitlist: zip of the sequence with
its own tail (surfnames all but last with surfnames all but first) fed to
the counting loop with an empty dict. -/
def sequence_to_hitlist (seq : List (String × SurfOptions)) :
    List (String × String × Nat) ×
    List ((String × String × Nat) × (SurfOptions × SurfOptions)) :=
  hitlistLoop [] (seq.zip seq.tail)

/-- Ordered key pair of one consecutive sequence pair. -/
def hitKey (p : (String × SurfOptions) × (String × SurfOptions)) :
    String × String :=
  (p.1.1, p.2.1)

/-- Modelled from the spec: a RayPath is the ordered sequence of RayBundle
snapshots of one trajectory, created with one seed bundle (ray.py is not
among the given sources). -/
abbrev RayPath (B : Type) := List B

/-- Modelled from the spec: appendRayBundle appends one bundle snapshot at
the end of the path. -/
def appendRayBundle {B : Type} (rp : RayPath B) (rb : B) : RayPath B :=
  rp ++ [rb]

/-- Last stored bundle of a path (raybundles[-1]). -/
def lastBundle {B : Type} [Inhabited B] (rp : RayPath B) : B :=
  rp.getLastD default

/-- In-place mutation of the last stored bundle of a path, as performed by
current_material.propagate on raybundles[-1]. -/
def updateLastBundle {B : Type} [Inhabited B] (rp : RayPath B) (f : B → B) :
    RayPath B :=
  rp.dropLast ++ [f (lastBundle rp)]

/-- Inner loop of seqtrace over the active paths: deflect1 returns the
bundles produced at the current surface from the last bundle of a path; the
first one extends the path in place, every further one extends a copy of
the path, collected into rpaths_new (second component, in path order). -/
def deflectPaths {B : Type} [Inhabited B] (deflect1 : B → List B) :
    List (RayPath B) → List (RayPath B) × List (RayPath B)
  | [] => ([], [])
  | rp :: rest =>
      let raybundles := deflect1 (lastBundle rp)
      let copies := (raybundles.drop 1).map (fun rb => appendRayBundle rp rb)
      let res := deflectPaths deflect1 rest
      (appendRayBundle rp raybundles.headI :: res.1, copies ++ res.2)

/-- Surface looked up for one sequence entry (self.surfaces[surfkey]). -/
def stepSurface {V : Type} (el : OpticalElement V)
    (entry : String × SurfOptions) : Surface :=
  (dictGet entry.1 el.surfaces).getD default

/-- Material after the crossing of one sequence entry: on a non-mirror
entry the bound material that is not the current one by reference identity,
on a mirror entry the unchanged current material; missing material keys
fall back to the background medium (dict get with default). -/
def stepMaterial {V : Type} (el : OpticalElement V)
    (background_medium current_material : Material V)
    (entry : String × SurfOptions) : Material V :=
  let matkeys := (dictGet entry.1 el.surf_mat_connection).getD ("", "")
  let mnmat := (dictGet matkeys.1 el.materials).getD background_medium
  let pnmat := (dictGet matkeys.2 el.materials).getD background_medium
  if ! entry.2.is_mirror then
    findoutWhichMaterial mnmat pnmat current_material
  else current_material

/-- Deflection call of one sequence entry: refract on a non-mirror entry,
reflect on a mirror entry, at the entry surface with the updated current
material and the splitup flag. -/
def stepDeflect {V B : Type}
    (refractF reflectF : Material V → Surface → B → Bool → List B)
    (current_surface : Surface) (current_material : Material V)
    (splitup refract_flag : Bool) : B → List B :=
  fun b =>
    (if refract_flag then refractF else reflectF)
      current_material current_surface b splitup

/-- Body of the main loop of seqtrace for one sequence entry.  State is the
current material together with the active path list; propagateF, refractF
and reflectF stand for the external Material interface methods.  The last
bundle of every active path is first propagated in place, then the current
material is updated, then every path is deflected, and the copied branch
paths are appended after all previously active paths. -/
def seqtraceStep {V B : Type} [Inhabited B]
    (propagateF : Material V → Surface → B → B)
    (refractF reflectF : Material V → Surface → B → Bool → List B)
    (el : OpticalElement V) (background_medium : Material V) (splitup : Bool)
    (st : Material V × List (RayPath B)) (entry : String × SurfOptions) :
    Material V × List (RayPath B) :=
  let current_surface := stepSurface el entry
  let rpaths := st.2.map
    (fun rp => updateLastBundle rp (propagateF st.1 current_surface))
  let current_material := stepMaterial el background_medium st.1 entry
  let res := deflectPaths
    (stepDeflect refractF reflectF current_surface current_material splitup
      (! entry.2.is_mirror))
    rpaths
  (current_material, res.1 ++ res.2)

/-- Source optical_element.py seqtrace: fold of seqtraceStep over the
sequence, starting from one path seeded with the input bundle and the
background medium as current material. -/
def seqtrace {V B : Type} [Inhabited B]
    (propagateF : Material V → Surface → B → B)
    (refractF reflectF : Material V → Surface → B → Bool → List B)
    (el : OpticalElement V) (raybundle : B)
    (sequence : List (String × SurfOptions)) (background_medium : Material V)
    (splitup : Bool) : List (RayPath B) :=
  (sequence.foldl
    (seqtraceStep propagateF refractF reflectF el background_medium splitup)
    (background_medium, [[raybundle]])).2

/-- Dict writes of one iteration of the calculateXYUV loop: the forward
best fit under the (start, end, hit) key, then the independently fitted
reverse matrix under the reversed key.  genmat stands for the composition
of the global-to-local transform of the named surface with the
generate_matrix_6xN reduction; bestfit stands for bestfit_transfer. -/
def xyuvWrite {B Mat : Type} (genmat : String → B → Mat)
    (bestfit : Mat → Mat → Mat)
    (acc : List ((String × String × Nat) × Mat))
    (leg : B × B × (String × String × Nat)) :
    List ((String × String × Nat) × Mat) :=
  let startmatrix := genmat leg.2.2.1 leg.1
  let endmatrix := genmat leg.2.2.2.1 leg.2.1
  let transfer := bestfit startmatrix endmatrix
  let invtransfer := bestfit endmatrix startmatrix
  dictInsert (leg.2.2.2.1, leg.2.2.1, leg.2.2.2.2) invtransfer
    (dictInsert leg.2.2 transfer acc)

/-- Zip of the selected pilot path with its own tail and the hitlist, one
entry per consecutive surface hit (startpilotbundle, endpilotbundle,
surfhit in the source loop). -/
def pilotLegs {B : Type} (pilotraypath : RayPath B)
    (hitlist : List (String × String × Nat)) :
    List (B × B × (String × String × Nat)) :=
  pilotraypath.dropLast.zip ((pilotraypath.drop 1).zip hitlist)

/-- Source optical_element.py calculateXYUV: runs seqtrace with splitup on
the pilot bundle, selects one resulting path, and folds the per-leg dict
writes over the consecutive surface hits.  The numeric extraction and the
least squares fit are abstracted into genmat and bestfit. -/
def calculateXYUV {V B Mat : Type} [Inhabited B]
    (propagateF : Material V → Surface → B → B)
    (refractF reflectF : Material V → Surface → B → Bool → List B)
    (genmat : String → B → Mat) (bestfit : Mat → Mat → Mat)
    (el : OpticalElement V) (pilotinitbundle : B)
    (sequence : List (String × SurfOptions)) (background_medium : Material V)
    (pilotraypath_nr : Nat) :
    RayPath B × List ((String × String × Nat) × Mat) :=
  let hitlist := (sequence_to_hitlist sequence).1
  let pilotraypaths :=
    seqtrace propagateF refractF reflectF el pilotinitbundle sequence
      background_medium true
  let pilotraypath := pilotraypaths.getD pilotraypath_nr []
  (pilotraypath,
   (pilotLegs pilotraypath hitlist).foldl (xyuvWrite genmat bestfit) [])

/-- Local 3-vector of one ray (floating point modelled as real numbers). -/
structure Vec3 where
  x : ℝ
  y : ℝ
  z : ℝ

/-- Source surface_shape.py Conic.intersect, coefficient F of one ray. -/
def conicF (curv cc : ℝ) (r0 rayDir : Vec3) : ℝ :=
  rayDir.z - curv * (rayDir.x * r0.x + rayDir.y * r0.y +
    rayDir.z * r0.z * (1 + cc))

/-- Source surface_shape.py Conic.intersect, coefficient G of one ray. -/
def conicG (curv cc : ℝ) (r0 : Vec3) : ℝ :=
  curv * (r0.x ^ 2 + r0.y ^ 2 + r0.z ^ 2 * (1 + cc)) - 2 * r0.z

/-- Source surface_shape.py Conic.intersect, coefficient H of one ray. -/
def conicH (curv cc : ℝ) (rayDir : Vec3) : ℝ :=
  -curv - cc * curv * rayDir.z ^ 2

/-- Discriminant (named square in the source) of the conic quadratic. -/
def conicSquare (curv cc : ℝ) (r0 rayDir : Vec3) : ℝ :=
  conicF curv cc r0 rayDir ^ 2 + conicH curv cc rayDir * conicG curv cc r0

/-- Path length t = G / (F + sqrt(square)) of Conic.intersect. -/
noncomputable def conicT (curv cc : ℝ) (r0 rayDir : Vec3) : ℝ :=
  conicG curv cc r0 /
    (conicF curv cc r0 rayDir + Real.sqrt (conicSquare curv cc r0 rayDir))

/-- Per-ray validity flag appended by Conic.intersect: square >= 0. -/
def conicValid (curv cc : ℝ) (r0 rayDir : Vec3) : Prop :=
  conicSquare curv cc r0 rayDir ≥ 0

/-- Source surface_shape.py Cylinder.intersect, coefficient F (the x terms
of the conic are dropped). -/
def cylinderF (curv cc : ℝ) (r0 rayDir : Vec3) : ℝ :=
  rayDir.z - curv * (rayDir.y * r0.y + rayDir.z * r0.z * (1 + cc))

/-- Source surface_shape.py Cylinder.intersect, coefficient G. -/
def cylinderG (curv cc : ℝ) (r0 : Vec3) : ℝ :=
  curv * (r0.y ^ 2 + r0.z ^ 2 * (1 + cc)) - 2 * r0.z

/-- Source surface_shape.py Cylinder.intersect, coefficient H. -/
def cylinderH (curv cc : ℝ) (rayDir : Vec3) : ℝ :=
  -curv - cc * curv * rayDir.z ^ 2

/-- Discriminant (named square in the source) of the cylinder quadratic. -/
def cylinderSquare (curv cc : ℝ) (r0 rayDir : Vec3) : ℝ :=
  cylinderF curv cc r0 rayDir ^ 2 + cylinderH curv cc rayDir * cylinderG curv cc r0

/-- Per-ray validity flag appended by Cylinder.intersect: square > 0
(strict, unlike the conic case). -/
def cylinderValid (curv cc : ℝ) (r0 rayDir : Vec3) : Prop :=
  cylinderSquare curv cc r0 rayDir > 0

/-- Per-shape convergence configuration stored by
FreeShape.createAnnotationsAndStructure: tolerance and iteration count. -/
structure FreeShapeConfig where
  tol : ℝ
  iterations : Nat

/-- Function handed to the scalar root finder by ExplicitShape.intersect:
the residual along the ray of the explicit surface equation z = F(x, y). -/
def explicitFwrapper (F : ℝ → ℝ → ℝ) (r0 rayDir : Vec3) (t : ℝ) : ℝ :=
  r0.z + t * rayDir.z - F (r0.x + t * rayDir.x) (r0.y + t * rayDir.y)

/-- Source surface_shape.py ExplicitShape.intersect for one ray.  fsolveR
abstracts the external root finder (scipy fsolve), taking the residual
function, the seed t = 0 and the xtol tolerance; the appended validity
flag is the constant true of np.ones_like, independent of the solver
outcome, and only cfg.tol is handed to the solver. -/
def explicitIntersect (fsolveR : (ℝ → ℝ) → ℝ → ℝ → ℝ)
    (cfg : FreeShapeConfig) (F : ℝ → ℝ → ℝ) (r0 rayDir : Vec3) :
    Vec3 × Bool :=
  let t := fsolveR (explicitFwrapper F r0 rayDir) 0 cfg.tol
  (⟨r0.x + rayDir.x * t, r0.y + rayDir.y * t, r0.z + rayDir.z * t⟩, true)

/-- Exact-arithmetic model of math.ceil(math.sqrt j) for a nonnegative
integer j: the least s with j <= s * s. -/
def ceilSqrt (j : ℤ) : ℤ :=
  if Nat.sqrt j.toNat * Nat.sqrt j.toNat = j.toNat then (Nat.sqrt j.toNat : ℤ)
  else (Nat.sqrt j.toNat : ℤ) + 1

/-- Python int() conversion of an exact rational: truncation toward zero. -/
def pytrunc (q : ℚ) : ℤ :=
  if q < 0 then ⌈q⌉ else ⌊q⌋

namespace ZernikeFringe

/-- Source surface_shape.py ZernikeFringe.jtonm under exact arithmetic:
next_sq is the square of the ceiling square root of j, m_plus_n and the
ceiling division follow the float formulas exactly. -/
def jtonm (j : ℤ) : ℤ × ℤ :=
  let next_sq := ceilSqrt j ^ 2
  let m_plus_n := 2 * ceilSqrt j - 2
  let m0 : ℤ := ⌈((next_sq - j : ℤ) : ℚ) / 2⌉
  let n := m_plus_n - m0
  let m := (-1) ^ ((next_sq - j) % 2).toNat * m0
  (n, m)

/-- Source surface_shape.py ZernikeFringe.nmtoj under exact arithmetic;
np.sign becomes Int.sign and the int() cast becomes pytrunc. -/
def nmtoj (nm : ℤ × ℤ) : ℤ :=
  pytrunc ((((nm.1 + |nm.2| : ℤ) : ℚ) / 2 + 1) ^ 2 - 2 * ((|nm.2| : ℤ) : ℚ) +
    (1 - ((Int.sign nm.2 : ℤ) : ℚ)) / 2)

end ZernikeFringe

namespace ZernikeANSI

/-- Source surface_shape.py ZernikeANSI.jtonm under exact arithmetic: the
float floor((-1 + sqrt(1 + 8 j)) / 2) becomes the integer formula with the
natural number square root. -/
def jtonm (j : ℤ) : ℤ × ℤ :=
  let jp := j - 1
  let n : ℤ := ((Nat.sqrt (1 + 8 * jp).toNat : ℤ) - 1) / 2
  let m := n - 2 * jp + n * (n + 1)
  (n, -m)

/-- Source surface_shape.py ZernikeANSI.nmtoj under exact arithmetic. -/
def nmtoj (nm : ℤ × ℤ) : ℤ :=
  pytrunc ((((nm.1 + 2) * nm.1 + nm.2 : ℤ) : ℚ) / 2) + 1

end ZernikeANSI

instance : Inhabited SurfOptions := ⟨⟨false⟩⟩

/-- Concrete background material used by the test fixtures. -/
def sampleBg : Material Nat := ⟨0, 0, "", 0⟩

/-- Concrete optical element with two connected surfaces. -/
def sampleEl : OpticalElement Nat :=
  { rootConnected := [0],
    surfaces := [("A", ⟨1, 0⟩), ("B", ⟨2, 0⟩)],
    materials := [],
    surf_mat_connection := [("A", ("m", "n")), ("B", ("m", "n"))] }

/-- Concrete optical element whose root frame has no connected children. -/
def sampleElNoRoot : OpticalElement Nat :=
  { rootConnected := [], surfaces := [], materials := [],
    surf_mat_connection := [] }

/-- Concrete three-entry sequence visiting A, B, A. -/
def seqABA : List (String × SurfOptions) :=
  [("A", ⟨false⟩), ("B", ⟨false⟩), ("A", ⟨false⟩)]

/-- Concrete single-surface, non-mirror sequence. -/
def seqA : List (String × SurfOptions) := [("A", ⟨false⟩)]

/-- Concrete injective stand-in for the least squares fit, used to tell the
forward fit of one leg from the reverse fit of another. -/
def cxFit (x y : Nat) : Nat := 2 ^ x * 3 ^ y

theorem dictGet_dictInsert_self {α β : Type} [DecidableEq α] (k : α) (v : β)
    (d : List (α × β)) : dictGet k (dictInsert k v d) = some v := by
  induction d with
  | nil => simp [dictGet, dictInsert]
  | cons hd tl ih =>
      obtain ⟨k1, v1⟩ := hd
      by_cases h : k1 = k
      · simp [dictGet, dictInsert, h]
      · simp [dictGet, dictInsert, h, ih]

theorem dictGet_dictInsert_ne {α β : Type} [DecidableEq α] {k k1 : α} (v : β)
    (d : List (α × β)) (h : k1 ≠ k) :
    dictGet k1 (dictInsert k v d) = dictGet k1 d := by
  have h1 : ¬k = k1 := fun hh => h hh.symm
  induction d with
  | nil => simp [dictGet, dictInsert, h1]
  | cons hd tl ih =>
      obtain ⟨k2, v2⟩ := hd
      by_cases h2 : k2 = k
      · subst h2
        simp [dictGet, dictInsert, h1]
      · by_cases h3 : k2 = k1
        · simp [dictGet, dictInsert, h2, h3, h]
        · simp [dictGet, dictInsert, h2, h3, ih]

theorem hitlistLoop_length (d : List ((String × String) × Nat))
    (ps : List ((String × SurfOptions) × (String × SurfOptions))) :
    (hitlistLoop d ps).1.length = ps.length := by
  induction ps generalizing d with
  | nil => rfl
  | cons p rest ih =>
      obtain ⟨⟨sb, optsb⟩, ⟨se, optse⟩⟩ := p
      simp [hitlistLoop, ih]

theorem hitlistLoop_cons (d : List ((String × String) × Nat))
    (sb se : String) (optsb optse : SurfOptions)
    (rest : List ((String × SurfOptions) × (String × SurfOptions))) :
    (hitlistLoop d (((sb, optsb), (se, optse)) :: rest)).1 =
      (sb, se, (dictGet (sb, se) d).getD 0 + 1) ::
        (hitlistLoop
          (dictInsert (sb, se) ((dictGet (sb, se) d).getD 0 + 1) d) rest).1 :=
  rfl

theorem hitlistLoop_getD (d : List ((String × String) × Nat))
    (ps : List ((String × SurfOptions) × (String × SurfOptions)))
    (i : Nat) (h : i < ps.length) :
    (hitlistLoop d ps).1.getD i ("", "", 0) =
      ((ps.getD i default).1.1, (ps.getD i default).2.1,
       (dictGet (hitKey (ps.getD i default)) d).getD 0 + 1 +
         (ps.take i).countP
           (fun q => decide (hitKey q = hitKey (ps.getD i default)))) := by
  induction ps generalizing d i with
  | nil => simp at h
  | cons p rest ih =>
      obtain ⟨⟨sb, optsb⟩, ⟨se, optse⟩⟩ := p
      match i with
      | 0 => simp [hitlistLoop, hitKey]
      | Nat.succ i =>
          have hi : i < rest.length := by simpa using h
          have hrec := ih (dictInsert (sb, se)
            (((dictGet (sb, se) d).getD 0) + 1) d) i hi
          rw [hitlistLoop_cons, List.getD_cons_succ, hrec,
            List.getD_cons_succ, List.take_succ_cons, List.countP_cons]
          by_cases hk : hitKey (rest.getD i default) = (sb, se)
          · have e1 : dictGet (hitKey (rest.getD i default))
                (dictInsert (sb, se) (((dictGet (sb, se) d).getD 0) + 1) d) =
                some (((dictGet (sb, se) d).getD 0) + 1) := by
              rw [hk]
              exact dictGet_dictInsert_self _ _ _
            have e2 : dictGet (hitKey (rest.getD i default)) d =
                dictGet (sb, se) d := by rw [hk]
            have e3 : decide (hitKey ((sb, optsb), (se, optse)) =
                  hitKey (rest.getD i default)) = true :=
              decide_eq_true hk.symm
            rw [e1, e2, e3]
            refine congrArg _ (congrArg _ ?_)
            simp
            omega
          · have e1 : dictGet (hitKey (rest.getD i default))
                (dictInsert (sb, se) (((dictGet (sb, se) d).getD 0) + 1) d) =
                dictGet (hitKey (rest.getD i default)) d :=
              dictGet_dictInsert_ne _ _ hk
            have e3 : decide (hitKey ((sb, optsb), (se, optse)) =
                  hitKey (rest.getD i default)) = false :=
              decide_eq_false (fun hh => hk hh.symm)
            rw [e1, e3]
            refine congrArg _ (congrArg _ ?_)
            simp

/-- C2: sequence_to_hitlist returns one hit entry per consecutive pair of
sequence entries, and the occurrence index of the hit at position i is one
more than the number of earlier consecutive pairs with the identical
ordered (start, end) key pair. -/
theorem sequence_to_hitlist_occurrence (seq : List (String × SurfOptions)) :
    (sequence_to_hitlist seq).1.length = (seq.zip seq.tail).length ∧
    ∀ i, i < (seq.zip seq.tail).length →
      (sequence_to_hitlist seq).1.getD i ("", "", 0) =
        (((seq.zip seq.tail).getD i default).1.1,
         ((seq.zip seq.tail).getD i default).2.1,
         1 + ((seq.zip seq.tail).take i).countP
           (fun q => decide
             (hitKey q = hitKey ((seq.zip seq.tail).getD i default)))) := by
  constructor
  · exact hitlistLoop_length [] (seq.zip seq.tail)
  · intro i hlt
    rw [sequence_to_hitlist, hitlistLoop_getD [] (seq.zip seq.tail) i hlt]
    simp [dictGet, Nat.add_comm]

/-- Witness for C2: on the sequence [A, B, A] the second hit is (B, A) with
occurrence index 1, the A to B and B to A transitions being counted as
different ordered pairs. -/
theorem sequence_to_hitlist_occurrence_witness :
    1 < (seqABA.zip seqABA.tail).length ∧
    (sequence_to_hitlist seqABA).1.getD 1 ("", "", 0) = ("B", "A", 1) :=
  ⟨by decide, (sequence_to_hitlist_occurrence seqABA).2 1 (by decide)⟩

/-- C3: findoutWhichMaterial selects by reference identity: when the current
material is the mat1 object it returns mat2; when it is the mat2 object and
not the mat1 object it returns mat1; a mat1 that is value-equal to the
current material but a distinct object is still returned as the material
that is not the current one. -/
theorem findoutWhichMaterial_identity {V : Type} (mat1 mat2 cur : Material V) :
    (cur.oid = mat1.oid → findoutWhichMaterial mat1 mat2 cur = mat2) ∧
    (cur.oid = mat2.oid → cur.oid ≠ mat1.oid →
      findoutWhichMaterial mat1 mat2 cur = mat1) ∧
    (mat1.val = cur.val → cur.oid ≠ mat1.oid →
      findoutWhichMaterial mat1 mat2 cur = mat1) := by
  refine ⟨fun h => ?_, fun _ h2 => ?_, fun _ h2 => ?_⟩
  · simp [findoutWhichMaterial, h.symm]
  · have hne : mat1.oid ≠ cur.oid := fun hh => h2 hh.symm
    simp [findoutWhichMaterial, hne]
  · have hne : mat1.oid ≠ cur.oid := fun hh => h2 hh.symm
    simp [findoutWhichMaterial, hne]

/-- Witness for C3: two value-equal materials with distinct object ids; the
current material is the second one, so the first is selected. -/
theorem findoutWhichMaterial_identity_witness :
    ((⟨2, 0, "", 7⟩ : Material Nat).oid = (⟨2, 0, "", 7⟩ : Material Nat).oid) ∧
    findoutWhichMaterial (⟨1, 0, "", 7⟩ : Material Nat) ⟨2, 0, "", 7⟩
      ⟨2, 0, "", 7⟩ = ⟨1, 0, "", 7⟩ :=
  ⟨rfl, (findoutWhichMaterial_identity ⟨1, 0, "", 7⟩ ⟨2, 0, "", 7⟩
    ⟨2, 0, "", 7⟩).2.1 rfl (by decide)⟩

/-- C7: registering a surface or a material whose coordinate frame is not
connected to the element root frame raises immediately and leaves the
element state (surfaces, materials and surface-material connection dicts)
unchanged. -/
theorem addSurface_addMaterial_unconnected {V : Type} (el : OpticalElement V)
    (key : String) (surf : Surface) (mat : Material V)
    (mk : String × String) (c : String) :
    (surf.rootcoordinatesystem ∉ el.rootConnected →
      addSurface el key surf mk =
        (el, some "surface coordinate system should be connected to OpticalElement root coordinate system")) ∧
    (mat.lc ∉ el.rootConnected →
      addMaterial el key mat c =
        (el, some "material coordinate system should be connected to OpticalElement root coordinate system")) := by
  constructor
  · intro h
    simp [addSurface, checkForRootConnection, h]
  · intro h
    simp [addMaterial, checkForRootConnection, h]

/-- Witness for C7: adding a surface and a material attached to frame 5,
which is not connected to the root of the sample element. -/
theorem addSurface_addMaterial_unconnected_witness :
    ((5 : Nat) ∉ sampleEl.rootConnected) ∧
    addSurface sampleEl "x" ⟨9, 5⟩ ("m", "n") =
      (sampleEl, some "surface coordinate system should be connected to OpticalElement root coordinate system") ∧
    addMaterial sampleEl "x" ⟨9, 5, "", 0⟩ "" =
      (sampleEl, some "material coordinate system should be connected to OpticalElement root coordinate system") :=
  ⟨by decide,
   (addSurface_addMaterial_unconnected sampleEl "x" ⟨9, 5⟩ ⟨9, 5, "", 0⟩
     ("m", "n") "").1 (by decide),
   (addSurface_addMaterial_unconnected sampleEl "x" ⟨9, 5⟩ ⟨9, 5, "", 0⟩
     ("m", "n") "").2 (by decide)⟩

/-- Counterexample for C8: re-registering key a with a connected but
different surface object replaces the stored surface object as well, so
the previously stored surface does not remain under the key. -/
theorem addSurface_rebind_counterexample :
    dictGet "a"
      ((addSurface (addSurface sampleEl "a" ⟨1, 0⟩ ("m1", "m2")).1
        "a" ⟨2, 0⟩ ("m3", "m4")).1).surfaces = some ⟨2, 0⟩ ∧
    ((dictGet "a"
      ((addSurface (addSurface sampleEl "a" ⟨1, 0⟩ ("m1", "m2")).1
        "a" ⟨2, 0⟩ ("m3", "m4")).1).surfaces = some ⟨1, 0⟩) = False) := by
  constructor
  · decide
  · exact eq_false (by decide)

/-- C8 amended: re-registering an existing key through addSurface silently
overwrites both the stored surface object and the recorded material pair;
the material-pair-only overwrite that leaves the stored surface unchanged
is the separate changeMaterialsForSurface operation. -/
theorem addSurface_rebind_amended {V : Type} (el : OpticalElement V)
    (key : String) (s2 : Surface) (mk2 mk3 : String × String)
    (hc : checkForRootConnection el s2.rootcoordinatesystem = true) :
    dictGet key (addSurface el key s2 mk2).1.surfaces = some s2 ∧
    dictGet key (addSurface el key s2 mk2).1.surf_mat_connection = some mk2 ∧
    (changeMaterialsForSurface el key mk3).surfaces = el.surfaces ∧
    ((dictGet key el.surf_mat_connection).isSome = true →
      dictGet key (changeMaterialsForSurface el key mk3).surf_mat_connection =
        some mk3) := by
  refine ⟨?_, ?_, ?_, ?_⟩
  · simp [addSurface, hc, dictGet_dictInsert_self]
  · simp [addSurface, hc, dictGet_dictInsert_self]
  · unfold changeMaterialsForSurface
    split <;> rfl
  · intro h
    simp [changeMaterialsForSurface, h, dictGet_dictInsert_self]

/-- Witness for C8 amended: overwriting key a of the sample element after a
first registration, and a material-pair-only update. -/
theorem addSurface_rebind_amended_witness :
    checkForRootConnection (addSurface sampleEl "a" ⟨1, 0⟩ ("m1", "m2")).1
      (Surface.rootcoordinatesystem ⟨2, 0⟩) = true ∧
    dictGet "a" ((addSurface (addSurface sampleEl "a" ⟨1, 0⟩ ("m1", "m2")).1
      "a" ⟨2, 0⟩ ("m3", "m4")).1).surfaces = some ⟨2, 0⟩ :=
  ⟨by decide,
   (addSurface_rebind_amended (addSurface sampleEl "a" ⟨1, 0⟩ ("m1", "m2")).1
     "a" ⟨2, 0⟩ ("m3", "m4") ("m5", "m6") (by decide)).1⟩

theorem updateLastBundle_length {B : Type} [Inhabited B] (rp : RayPath B)
    (f : B → B) (h : rp ≠ []) : (updateLastBundle rp f).length = rp.length := by
  have hpos : 0 < rp.length := List.length_pos.mpr h
  simp [updateLastBundle, List.length_dropLast]
  omega

theorem deflectPaths_eq {B : Type} [Inhabited B] (deflect1 : B → List B)
    (rpaths : List (RayPath B)) :
    deflectPaths deflect1 rpaths =
      (rpaths.map (fun rp => appendRayBundle rp (deflect1 (lastBundle rp)).headI),
       rpaths.flatMap (fun rp => ((deflect1 (lastBundle rp)).drop 1).map
         (fun rb => appendRayBundle rp rb))) := by
  induction rpaths with
  | nil => rfl
  | cons rp rest ih => simp [deflectPaths, ih]

theorem seqtraceStep_singleton {V B : Type} [Inhabited B]
    (propagateF : Material V → Surface → B → B)
    (refractF reflectF : Material V → Surface → B → Bool → List B)
    (el : OpticalElement V) (bg : Material V) (sp : Bool)
    (h : ∀ m s b, (refractF m s b sp).length = 1 ∧ (reflectF m s b sp).length = 1)
    (st : Material V × List (RayPath B)) (entry : String × SurfOptions)
    (L : Nat) (hL : 1 ≤ L) (hall : ∀ rp ∈ st.2, rp.length = L) :
    (seqtraceStep propagateF refractF reflectF el bg sp st entry).2.length =
      st.2.length ∧
    ∀ rp ∈ (seqtraceStep propagateF refractF reflectF el bg sp st entry).2,
      rp.length = L + 1 := by
  obtain ⟨m, rpaths⟩ := st
  have hone : ∀ b : B,
      (stepDeflect refractF reflectF (stepSurface el entry)
        (stepMaterial el bg m entry) sp (! entry.2.is_mirror) b).length = 1 := by
    intro b
    by_cases hm : entry.2.is_mirror
    · simp [stepDeflect, hm, (h _ _ b).2]
    · simp [stepDeflect, hm, (h _ _ b).1]
  have heq : (seqtraceStep propagateF refractF reflectF el bg sp
      (m, rpaths) entry).2 =
      (deflectPaths (stepDeflect refractF reflectF (stepSurface el entry)
        (stepMaterial el bg m entry) sp (! entry.2.is_mirror))
        (rpaths.map (fun rp => updateLastBundle rp
          (propagateF m (stepSurface el entry))))).1 ++
      (deflectPaths (stepDeflect refractF reflectF (stepSurface el entry)
        (stepMaterial el bg m entry) sp (! entry.2.is_mirror))
        (rpaths.map (fun rp => updateLastBundle rp
          (propagateF m (stepSurface el entry))))).2 := rfl
  rw [heq, deflectPaths_eq]
  dsimp only
  have hnil : ((rpaths.map (fun rp => updateLastBundle rp
      (propagateF m (stepSurface el entry)))).flatMap
      (fun rp => ((stepDeflect refractF reflectF (stepSurface el entry)
        (stepMaterial el bg m entry) sp (! entry.2.is_mirror)
        (lastBundle rp)).drop 1).map
        (fun rb => appendRayBundle rp rb))) = [] := by
    refine List.flatMap_eq_nil_iff.mpr ?_
    intro rp _
    rw [List.drop_eq_nil_of_le (le_of_eq (hone _))]
    rfl
  rw [hnil, List.append_nil]
  constructor
  · simp
  · intro rp hrp
    rw [List.mem_map] at hrp
    obtain ⟨rp1, hrp1, hrp2⟩ := hrp
    rw [List.mem_map] at hrp1
    obtain ⟨rp0, hrp0, hrp01⟩ := hrp1
    have h0 : rp0.length = L := hall rp0 hrp0
    have hne : rp0 ≠ [] := by
      intro hn
      rw [hn] at h0
      simp at h0
      omega
    have h1 : rp1.length = L := by
      rw [← hrp01]
      rw [updateLastBundle_length _ _ hne]
      exact h0
    rw [← hrp2]
    simp [appendRayBundle, h1]

theorem seqtrace_foldl_singleton {V B : Type} [Inhabited B]
    (propagateF : Material V → Surface → B → B)
    (refractF reflectF : Material V → Surface → B → Bool → List B)
    (el : OpticalElement V) (bg : Material V) (sp : Bool)
    (h : ∀ m s b, (refractF m s b sp).length = 1 ∧ (reflectF m s b sp).length = 1)
    (seq : List (String × SurfOptions)) :
    ∀ (st : Material V × List (RayPath B)) (L : Nat), 1 ≤ L →
      (∀ rp ∈ st.2, rp.length = L) →
      ((seq.foldl (seqtraceStep propagateF refractF reflectF el bg sp)
          st).2.length = st.2.length ∧
       ∀ rp ∈ (seq.foldl (seqtraceStep propagateF refractF reflectF el bg sp)
          st).2, rp.length = L + seq.length) := by
  induction seq with
  | nil =>
      intro st L hL hall
      exact ⟨rfl, by simpa using hall⟩
  | cons e seq ih =>
      intro st L hL hall
      rw [List.foldl_cons]
      have hstep := seqtraceStep_singleton propagateF refractF reflectF el bg
        sp h st e L hL hall
      have hrec := ih (seqtraceStep propagateF refractF reflectF el bg sp st e)
        (L + 1) (by omega) hstep.2
      refine ⟨hrec.1.trans hstep.1, ?_⟩
      intro rp hrp
      have := hrec.2 rp hrp
      simp only [List.length_cons]
      omega

/-- C1: under single-bundle deflection at every surface, seqtrace returns
exactly one RayPath holding one bundle per sequence entry on top of the
seed bundle; and the inner deflection loop extends every active path in
place with the first returned bundle while every further returned bundle
yields a copy of the path taken before this step extended with that
bundle, the copies being collected after the in-place extended paths in
path order. -/
theorem seqtrace_branching {V B : Type} [Inhabited B]
    (propagateF : Material V → Surface → B → B)
    (refractF reflectF : Material V → Surface → B → Bool → List B)
    (el : OpticalElement V) (rb0 : B) (sequence : List (String × SurfOptions))
    (bg : Material V) (sp : Bool) :
    ((∀ m s b, (refractF m s b sp).length = 1 ∧ (reflectF m s b sp).length = 1)
      → (seqtrace propagateF refractF reflectF el rb0 sequence bg sp).length
          = 1 ∧
        ∀ rp ∈ seqtrace propagateF refractF reflectF el rb0 sequence bg sp,
          rp.length = 1 + sequence.length) ∧
    (∀ (deflect1 : B → List B) (rpaths : List (RayPath B)),
      deflectPaths deflect1 rpaths =
        (rpaths.map
          (fun rp => appendRayBundle rp (deflect1 (lastBundle rp)).headI),
         rpaths.flatMap (fun rp => ((deflect1 (lastBundle rp)).drop 1).map
          (fun rb => appendRayBundle rp rb)))) := by
  constructor
  · intro h
    have hinit : ∀ rp ∈ ([[rb0]] : List (RayPath B)), rp.length = 1 := by
      intro rp hrp
      simp at hrp
      rw [hrp]
      rfl
    have := seqtrace_foldl_singleton propagateF refractF reflectF el bg sp h
      sequence (bg, [[rb0]]) 1 (le_refl 1) hinit
    refine ⟨this.1.trans rfl, ?_⟩
    intro rp hrp
    have := this.2 rp hrp
    omega
  · intro deflect1 rpaths
    exact deflectPaths_eq deflect1 rpaths

/-- Witness for C1: tracing one bundle through the three-entry sequence
with a single-bundle deflection yields exactly one path. -/
theorem seqtrace_branching_witness :
    (seqtrace (V := Nat) (B := Nat) (fun _ _ b => b) (fun _ _ b _ => [b + 1])
      (fun _ _ b _ => [b + 1]) sampleEl 0 seqABA sampleBg false).length = 1 :=
  ((seqtrace_branching (fun _ _ b => b) (fun _ _ b _ => [b + 1])
    (fun _ _ b _ => [b + 1]) sampleEl 0 seqABA sampleBg false).1
    (fun _ _ _ => ⟨rfl, rfl⟩)).1

theorem xyuvWrite_foldl_no_write {B Mat : Type} (genmat : String → B → Mat)
    (bestfit : Mat → Mat → Mat) (k : String × String × Nat)
    (legs : List (B × B × (String × String × Nat)))
    (acc : List ((String × String × Nat) × Mat))
    (h : ∀ leg ∈ legs, leg.2.2 ≠ k ∧
      (leg.2.2.2.1, leg.2.2.1, leg.2.2.2.2) ≠ k) :
    dictGet k (legs.foldl (xyuvWrite genmat bestfit) acc) = dictGet k acc := by
  induction legs generalizing acc with
  | nil => rfl
  | cons leg rest ih =>
      rw [List.foldl_cons, ih _ (fun l hl => h l (List.mem_cons_of_mem _ hl))]
      have h1 := h leg (List.mem_cons_self _ _)
      have hw : xyuvWrite genmat bestfit acc leg =
          dictInsert (leg.2.2.2.1, leg.2.2.1, leg.2.2.2.2)
            (bestfit (genmat leg.2.2.2.1 leg.2.1) (genmat leg.2.2.1 leg.1))
            (dictInsert leg.2.2
              (bestfit (genmat leg.2.2.1 leg.1) (genmat leg.2.2.2.1 leg.2.1))
              acc) := rfl
      rw [hw, dictGet_dictInsert_ne _ _ (Ne.symm h1.2),
        dictGet_dictInsert_ne _ _ (Ne.symm h1.1)]

/-- C9 amended: the mapping returned by calculateXYUV is the fold of the
per-hit dict writes over the legs of the selected pilot path; for a hit
(s1, s2, n) with s1 distinct from s2 whose two keys are not written by any
later hit, the returned mapping holds the forward best fit of this leg
under (s1, s2, n) and the independently fitted reverse matrix (a second
best fit with the leg matrices swapped, not a matrix inverse) under
(s2, s1, n).  When a later hit writes the same key, for instance the
reversed transition of the same surface pair in a sequence like A, B, A,
the later write overwrites the entry. -/
theorem calculateXYUV_amended {V B Mat : Type} [Inhabited B]
    (propagateF : Material V → Surface → B → B)
    (refractF reflectF : Material V → Surface → B → Bool → List B)
    (genmat : String → B → Mat) (bestfit : Mat → Mat → Mat)
    (el : OpticalElement V) (pb : B) (seq : List (String × SurfOptions))
    (bg : Material V) (nr : Nat) :
    (calculateXYUV propagateF refractF reflectF genmat bestfit el pb seq
        bg nr).2 =
      (pilotLegs
        ((seqtrace propagateF refractF reflectF el pb seq bg true).getD nr [])
        (sequence_to_hitlist seq).1).foldl (xyuvWrite genmat bestfit) [] ∧
    (∀ (acc : List ((String × String × Nat) × Mat))
      (pre post : List (B × B × (String × String × Nat)))
      (pb1 pb2 : B) (s1 s2 : String) (n : Nat),
      s1 ≠ s2 →
      (∀ leg ∈ post, leg.2.2 ≠ (s1, s2, n) ∧ leg.2.2 ≠ (s2, s1, n) ∧
        (leg.2.2.2.1, leg.2.2.1, leg.2.2.2.2) ≠ (s1, s2, n) ∧
        (leg.2.2.2.1, leg.2.2.1, leg.2.2.2.2) ≠ (s2, s1, n)) →
      dictGet (s1, s2, n)
        ((pre ++ (pb1, pb2, (s1, s2, n)) :: post).foldl
          (xyuvWrite genmat bestfit) acc) =
        some (bestfit (genmat s1 pb1) (genmat s2 pb2)) ∧
      dictGet (s2, s1, n)
        ((pre ++ (pb1, pb2, (s1, s2, n)) :: post).foldl
          (xyuvWrite genmat bestfit) acc) =
        some (bestfit (genmat s2 pb2) (genmat s1 pb1))) := by
  constructor
  · rfl
  · intro acc pre post pb1 pb2 s1 s2 n hne hpost
    rw [List.foldl_append, List.foldl_cons]
    have hw : xyuvWrite genmat bestfit
        (pre.foldl (xyuvWrite genmat bestfit) acc) (pb1, pb2, (s1, s2, n)) =
        dictInsert (s2, s1, n) (bestfit (genmat s2 pb2) (genmat s1 pb1))
          (dictInsert (s1, s2, n) (bestfit (genmat s1 pb1) (genmat s2 pb2))
            (pre.foldl (xyuvWrite genmat bestfit) acc)) := rfl
    have hfwd : ((s1, s2, n) : String × String × Nat) ≠ (s2, s1, n) :=
      fun hh => hne (congrArg Prod.fst hh)
    constructor
    · rw [xyuvWrite_foldl_no_write genmat bestfit (s1, s2, n) post _
        (fun l hl => ⟨(hpost l hl).1, (hpost l hl).2.2.1⟩), hw,
        dictGet_dictInsert_ne _ _ hfwd, dictGet_dictInsert_self]
    · rw [xyuvWrite_foldl_no_write genmat bestfit (s2, s1, n) post _
        (fun l hl => ⟨(hpost l hl).2.1, (hpost l hl).2.2.2⟩), hw,
        dictGet_dictInsert_self]

/-- Witness for C9 amended: a single leg from bundle 0 to bundle 1 over the
hit (A, B, 1); the final mapping holds the forward fit under (A, B, 1) and
the independently computed reverse fit under (B, A, 1). -/
theorem calculateXYUV_amended_witness :
    dictGet ("A", "B", 1)
      (([((0 : Nat), (1 : Nat), ("A", "B", 1))]).foldl
        (xyuvWrite (fun _ b => b) cxFit) []) = some (cxFit 0 1) ∧
    dictGet ("B", "A", 1)
      (([((0 : Nat), (1 : Nat), ("A", "B", 1))]).foldl
        (xyuvWrite (fun _ b => b) cxFit) []) = some (cxFit 1 0) :=
  (calculateXYUV_amended (V := Nat) (B := Nat) (fun _ _ b => b)
    (fun _ _ b _ => [b + 1]) (fun _ _ b _ => [b + 1]) (fun _ b => b) cxFit
    sampleEl 0 seqABA sampleBg 0).2 [] [] [] 0 1 "A" "B" 1 (by decide)
    (by simp)

/-- Counterexample for C9: on the sequence A, B, A the leg of the first hit
(A, B, 1) runs from pilot bundle 0 to pilot bundle 1, so the claimed
forward best fit for that hit is cxFit 0 1 = 3; but the returned mapping
holds 12 = cxFit 2 1 under the key (A, B, 1), the reverse fit of the later
(B, A, 1) leg having overwritten the forward fit. -/
theorem calculateXYUV_overwrite_counterexample :
    (pilotLegs
      ((seqtrace (V := Nat) (B := Nat) (fun _ _ b => b)
        (fun _ _ b _ => [b + 1]) (fun _ _ b _ => [b + 1]) sampleEl 0 seqABA
        sampleBg true).getD 0 [])
      (sequence_to_hitlist seqABA).1).getD 0 (0, 0, ("", "", 0)) =
      (0, 1, ("A", "B", 1)) ∧
    cxFit 0 1 = 3 ∧
    dictGet ("A", "B", 1)
      (calculateXYUV (V := Nat) (B := Nat) (fun _ _ b => b)
        (fun _ _ b _ => [b + 1]) (fun _ _ b _ => [b + 1]) (fun _ b => b) cxFit
        sampleEl 0 seqABA sampleBg 0).2 = some 12 ∧
    (((12 : Nat) = 3) = False) :=
  ⟨by decide, by decide, by decide, eq_false (by decide)⟩

/-- Counterexample for C4: a ray tangent to a flat cylinder surface has a
zero discriminant, which is nonnegative, yet Cylinder.intersect marks the
ray invalid because its validity test is strict. -/
theorem cylinder_tangent_counterexample :
    cylinderSquare 0 0 ⟨0, 0, 1⟩ ⟨0, 1, 0⟩ = 0 ∧
    cylinderSquare 0 0 ⟨0, 0, 1⟩ ⟨0, 1, 0⟩ ≥ 0 ∧
    (cylinderValid 0 0 ⟨0, 0, 1⟩ ⟨0, 1, 0⟩ = False) := by
  have h : cylinderSquare 0 0 ⟨0, 0, 1⟩ ⟨0, 1, 0⟩ = 0 := by
    unfold cylinderSquare cylinderF cylinderG cylinderH
    norm_num
  refine ⟨h, le_of_eq h.symm, eq_false ?_⟩
  unfold cylinderValid
  rw [h]
  exact lt_irrefl 0

/-- C4 amended: the validity flag of Conic.intersect is true exactly when
the discriminant F^2 + H G is nonnegative, while the validity flag of
Cylinder.intersect is true exactly when its discriminant is strictly
positive, so a zero-discriminant ray is valid for the conic but invalid
for the cylinder. -/
theorem conic_cylinder_validity (curv cc : ℝ) (r0 d : Vec3) :
    (conicValid curv cc r0 d ↔
      conicF curv cc r0 d ^ 2 + conicH curv cc d * conicG curv cc r0 ≥ 0) ∧
    (cylinderValid curv cc r0 d ↔
      cylinderF curv cc r0 d ^ 2 +
        cylinderH curv cc d * cylinderG curv cc r0 > 0) :=
  ⟨Iff.rfl, Iff.rfl⟩

/-- C5: on a zero-curvature conic the closed-form path length reduces to
the plane intersection at local z = 0 for any ray with positive local z
direction. -/
theorem conic_flat_plane (curv cc : ℝ) (r0 d : Vec3) (hc : curv = 0)
    (hd : 0 < d.z) : conicT curv cc r0 d = -r0.z / d.z := by
  subst hc
  have hdz : d.z ≠ 0 := ne_of_gt hd
  have h1 : conicF 0 cc r0 d = d.z := by unfold conicF; ring
  have h2 : conicG 0 cc r0 = -2 * r0.z := by unfold conicG; ring
  have h3 : conicSquare 0 cc r0 d = d.z ^ 2 := by
    unfold conicSquare conicH
    rw [h1, h2]
    ring
  unfold conicT
  rw [h1, h2, h3, Real.sqrt_sq hd.le]
  field_simp
  ring

/-- Witness for C5: a ray from local z = -2 along +z meets the flat
surface after path length 2. -/
theorem conic_flat_plane_witness :
    (0 : ℝ) < (Vec3.mk 0 0 1).z ∧
    conicT 0 0 ⟨0, 0, -2⟩ ⟨0, 0, 1⟩ = -(-2 : ℝ) / 1 :=
  ⟨one_pos, conic_flat_plane 0 0 ⟨0, 0, -2⟩ ⟨0, 0, 1⟩ rfl one_pos⟩

/-- C6: the validity flag appended by ExplicitShape.intersect is the
constant true independent of the root-finder outcome, the result does not
depend on the configured iteration count (which is stored but never handed
to the solver), and there is a ray with no intersection root at all (flat
surface z = 0, ray at z = 1 moving along x, residual constantly 1) that is
nonetheless marked valid. -/
theorem explicit_intersect_valid_mask (fsolveR : (ℝ → ℝ) → ℝ → ℝ → ℝ)
    (cfg : FreeShapeConfig) (F : ℝ → ℝ → ℝ) (r0 d : Vec3) (n : Nat) :
    (explicitIntersect fsolveR cfg F r0 d).2 = true ∧
    explicitIntersect fsolveR ⟨cfg.tol, n⟩ F r0 d =
      explicitIntersect fsolveR cfg F r0 d ∧
    ∀ t : ℝ, explicitFwrapper (fun _ _ => 0) ⟨0, 0, 1⟩ ⟨1, 0, 0⟩ t = 1 := by
  refine ⟨rfl, rfl, fun t => ?_⟩
  unfold explicitFwrapper
  norm_num

theorem pytrunc_intCast (k : ℤ) : pytrunc (k : ℚ) = k := by
  unfold pytrunc
  split
  · exact Int.ceil_intCast k
  · exact Int.floor_intCast k

theorem pytrunc_int_add_half (k : ℤ) (h : 0 ≤ k) :
    pytrunc ((k : ℚ) + 1 / 2) = k := by
  unfold pytrunc
  rw [if_neg]
  · rw [Int.floor_int_add]
    have h0 : ⌊(1 / 2 : ℚ)⌋ = 0 := by
      rw [Int.floor_eq_iff]
      constructor
      · norm_num
      · norm_num
    rw [h0, add_zero]
  · push_neg
    have hk : (0 : ℚ) ≤ (k : ℚ) := by exact_mod_cast h
    linarith

theorem ceil_two_mul_div_two (k : ℤ) : ⌈((2 * k : ℤ) : ℚ) / 2⌉ = k := by
  have h : ((2 * k : ℤ) : ℚ) / 2 = (k : ℚ) := by push_cast; ring
  rw [h, Int.ceil_intCast]

theorem ceil_two_mul_add_one_div_two (k : ℤ) :
    ⌈((2 * k + 1 : ℤ) : ℚ) / 2⌉ = k + 1 := by
  have h : ((2 * k + 1 : ℤ) : ℚ) / 2 = 1 / 2 + (k : ℚ) := by push_cast; ring
  rw [h, Int.ceil_add_int]
  have h1 : ⌈(1 / 2 : ℚ)⌉ = 1 := by
    rw [Int.ceil_eq_iff]
    constructor
    · norm_num
    · norm_num
  rw [h1]
  omega

theorem ceilSqrt_sq_ge (j : ℤ) (h : 0 ≤ j) : j ≤ ceilSqrt j ^ 2 := by
  unfold ceilSqrt
  split
  case isTrue heq =>
    have h1 : ((Nat.sqrt j.toNat : ℤ)) ^ 2 =
        ((Nat.sqrt j.toNat * Nat.sqrt j.toNat : ℕ) : ℤ) := by push_cast; ring
    rw [h1, heq, Int.toNat_of_nonneg h]
  case isFalse hne =>
    have h2 := Nat.lt_succ_sqrt j.toNat
    have h3 : (j.toNat : ℤ) <
        ((Nat.sqrt j.toNat : ℤ) + 1) * ((Nat.sqrt j.toNat : ℤ) + 1) := by
      exact_mod_cast h2
    rw [Int.toNat_of_nonneg h] at h3
    exact le_of_lt (h3.trans_eq (by ring))

theorem nmtoj_pair (n m : ℤ) : ZernikeFringe.nmtoj (n, m) =
    pytrunc ((((n + |m| : ℤ) : ℚ) / 2 + 1) ^ 2 - 2 * ((|m| : ℤ) : ℚ) +
      (1 - ((Int.sign m : ℤ) : ℚ)) / 2) := rfl

theorem fringe_nmtoj_eval (s a j : ℤ) (hja : j = s ^ 2 - a) (ha : 0 ≤ a)
    (hj : 0 ≤ j) :
    ZernikeFringe.nmtoj
      (2 * s - 2 - ⌈((a : ℤ) : ℚ) / 2⌉,
       (-1) ^ ((a % 2)).toNat * ⌈((a : ℤ) : ℚ) / 2⌉) = j := by
  subst hja
  rcases Int.even_or_odd a with he | ho
  · obtain ⟨k, hk⟩ := he
    have hk2 : a = 2 * k := by omega
    have hk0 : 0 ≤ k := by omega
    have hm0 : ⌈((a : ℤ) : ℚ) / 2⌉ = k := by
      rw [hk2]; exact ceil_two_mul_div_two k
    have hemod : ((a % 2)).toNat = 0 := by omega
    rw [hm0, hemod, pow_zero, one_mul]
    by_cases hkz : k = 0
    · subst hkz
      rw [nmtoj_pair, abs_zero, Int.sign_zero]
      have hx : ((((2 * s - 2 - 0 + 0 : ℤ)) : ℚ) / 2 + 1) ^ 2 -
          2 * (((0 : ℤ)) : ℚ) + (1 - (((0 : ℤ)) : ℚ)) / 2 =
          ((s ^ 2 : ℤ) : ℚ) + 1 / 2 := by push_cast; ring
      rw [hx, pytrunc_int_add_half (s ^ 2) (sq_nonneg s)]
      linarith [hk2]
    · rw [nmtoj_pair, abs_of_nonneg hk0,
        Int.sign_eq_one_iff_pos.mpr (by omega : (0 : ℤ) < k)]
      have hx : ((((2 * s - 2 - k + k : ℤ)) : ℚ) / 2 + 1) ^ 2 -
          2 * (((k : ℤ)) : ℚ) + (1 - (((1 : ℤ)) : ℚ)) / 2 =
          ((s ^ 2 - 2 * k : ℤ) : ℚ) := by push_cast; ring
      rw [hx, pytrunc_intCast]
      linarith [hk2]
  · obtain ⟨k, hk⟩ := ho
    have hk0 : 0 ≤ k := by omega
    have hm0 : ⌈((a : ℤ) : ℚ) / 2⌉ = k + 1 := by
      rw [hk]; exact ceil_two_mul_add_one_div_two k
    have hemod : ((a % 2)).toNat = 1 := by omega
    rw [hm0, hemod, pow_one]
    have hm : (-1 : ℤ) * (k + 1) = -(k + 1) := by ring
    rw [hm, nmtoj_pair]
    have habs : |(-(k + 1) : ℤ)| = k + 1 := by
      rw [abs_neg]; exact abs_of_nonneg (by omega)
    rw [habs, Int.sign_eq_neg_one_iff_neg.mpr (by omega : (-(k + 1) : ℤ) < 0)]
    have hx : ((((2 * s - 2 - (k + 1) + (k + 1) : ℤ)) : ℚ) / 2 + 1) ^ 2 -
        2 * (((k + 1 : ℤ)) : ℚ) + (1 - (((-1 : ℤ)) : ℚ)) / 2 =
        ((s ^ 2 - (2 * k + 1) : ℤ) : ℚ) := by push_cast; ring
    rw [hx, pytrunc_intCast]
    linarith [hk]

theorem ansi_nmtoj_eval (n jp : ℤ) :
    ZernikeANSI.nmtoj (n, -(n - 2 * jp + n * (n + 1))) = jp + 1 := by
  unfold ZernikeANSI.nmtoj
  dsimp only
  have hx : (((n + 2) * n + -(n - 2 * jp + n * (n + 1)) : ℤ) : ℚ) / 2 =
      ((jp : ℤ) : ℚ) := by push_cast; ring
  rw [hx, pytrunc_intCast]

/-- C10: for every index j at least 1, the double-index pair produced by
jtonm is mapped back to j by nmtoj, both for the Fringe ordering and for
the ANSI ordering. -/
theorem zernike_jtonm_nmtoj_roundtrip (j : ℤ) (hj : 1 ≤ j) :
    ZernikeFringe.nmtoj (ZernikeFringe.jtonm j) = j ∧
    ZernikeANSI.nmtoj (ZernikeANSI.jtonm j) = j := by
  constructor
  · have hjt : ZernikeFringe.jtonm j =
        (2 * ceilSqrt j - 2 - ⌈((ceilSqrt j ^ 2 - j : ℤ) : ℚ) / 2⌉,
         (-1) ^ ((ceilSqrt j ^ 2 - j) % 2).toNat *
           ⌈((ceilSqrt j ^ 2 - j : ℤ) : ℚ) / 2⌉) := rfl
    rw [hjt]
    exact fringe_nmtoj_eval (ceilSqrt j) (ceilSqrt j ^ 2 - j) j (by ring)
      (by linarith [ceilSqrt_sq_ge j (by omega)]) (by omega)
  · have hjt : ZernikeANSI.jtonm j =
        (((Nat.sqrt (1 + 8 * (j - 1)).toNat : ℤ) - 1) / 2,
         -((((Nat.sqrt (1 + 8 * (j - 1)).toNat : ℤ) - 1) / 2) - 2 * (j - 1) +
           (((Nat.sqrt (1 + 8 * (j - 1)).toNat : ℤ) - 1) / 2) *
             ((((Nat.sqrt (1 + 8 * (j - 1)).toNat : ℤ) - 1) / 2) + 1))) := rfl
    rw [hjt]
    exact (ansi_nmtoj_eval (((Nat.sqrt (1 + 8 * (j - 1)).toNat : ℤ) - 1) / 2)
      (j - 1)).trans (by omega)

/-- Witness for C10: the round trip at index 7 for both orderings. -/
theorem zernike_jtonm_nmtoj_roundtrip_witness :
    (1 : ℤ) ≤ 7 ∧ ZernikeFringe.nmtoj (ZernikeFringe.jtonm 7) = 7 ∧
    ZernikeANSI.nmtoj (ZernikeANSI.jtonm 7) = 7 :=
  ⟨by decide, (zernike_jtonm_nmtoj_roundtrip 7 (by decide)).1,
   (zernike_jtonm_nmtoj_roundtrip 7 (by decide)).2⟩

end Pyrate
